import Mathlib

/-!
Shallow embedding of the `autotown` telemetry service (files `admin.go` and
`web.go`) together with proofs about the frozen specification claims.

Modelling conventions:
* Go `time.Time` values are modelled as integers counting seconds from Go's
  zero time (January 1, year 1 UTC); `t.Before u` is `t < u` and `t.After u`
  is `u < t`.  The zero `time.Time` is `0`.
* Go machine integers are modelled as `Int`; the masking `b.ID & 0xff` is
  `Int.emod _ 256`, which agrees with two's-complement masking.
* `float64` latitude/longitude values are only ever copied verbatim by the
  code under study (no arithmetic is performed on them), so they are carried
  as `Int` placeholders; every theorem is insensitive to the carrier type.
* The datastore is a partial map `String → Option FoundController`
  (`datastore.Get` on a missing key leaves the zero value in place, which the
  merge code then uses).
-/

namespace Autotown

/-! ### SHA-256 (`crypto/sha256`, used via `sha256.Sum256` + `%x` formatting)

An executable translation of the FIPS 180-4 algorithm over `Nat` with
explicit reduction modulo `2^32`.  The code calls
`fmt.Sprintf("%x", sha256.Sum256([]byte(s)))`, i.e. the 64-character
lowercase hex digest of the UTF-8 bytes of `s`. -/

def w32 (n : Nat) : Nat := n % 4294967296

def rotr32 (x n : Nat) : Nat := w32 ((x >>> n) ||| (x <<< (32 - n)))

def shaCh (x y z : Nat) : Nat := (x &&& y) ^^^ ((x ^^^ 4294967295) &&& z)

def shaMaj (x y z : Nat) : Nat := (x &&& y) ^^^ (x &&& z) ^^^ (y &&& z)

def bigSigma0 (x : Nat) : Nat := rotr32 x 2 ^^^ rotr32 x 13 ^^^ rotr32 x 22

def bigSigma1 (x : Nat) : Nat := rotr32 x 6 ^^^ rotr32 x 11 ^^^ rotr32 x 25

def smallSigma0 (x : Nat) : Nat := rotr32 x 7 ^^^ rotr32 x 18 ^^^ (x >>> 3)

def smallSigma1 (x : Nat) : Nat := rotr32 x 17 ^^^ rotr32 x 19 ^^^ (x >>> 10)

/-- Round constants K of SHA-256. -/
def shaK : List Nat :=
  [1116352408, 1899447441, 3049323471, 3921009573,
   961987163, 1508970993, 2453635748, 2870763221,
   3624381080, 310598401, 607225278, 1426881987,
   1925078388, 2162078206, 2614888103, 3248222580,
   3835390401, 4022224774, 264347078, 604807628,
   770255983, 1249150122, 1555081692, 1996064986,
   2554220882, 2821834349, 2952996808, 3210313671,
   3336571891, 3584528711, 113926993, 338241895,
   666307205, 773529912, 1294757372, 1396182291,
   1695183700, 1986661051, 2177026350, 2456956037,
   2730485921, 2820302411, 3259730800, 3345764771,
   3516065817, 3600352804, 4094571909, 275423344,
   430227734, 506948616, 659060556, 883997877,
   958139571, 1322822218, 1537002063, 1747873779,
   1955562222, 2024104815, 2227730452, 2361852424,
   2428436474, 2756734187, 3204031479, 3329325298]

/-- State of the eight 32-bit working variables. -/
structure Hash8 where
  a : Nat
  b : Nat
  c : Nat
  d : Nat
  e : Nat
  f : Nat
  g : Nat
  h : Nat
deriving Repr, DecidableEq

/-- Initial hash value H(0) of SHA-256. -/
def initH : Hash8 :=
  ⟨1779033703, 3144134277, 1013904242, 2773480762,
   1359893119, 2600822924, 528734635, 1541459225⟩

/-- Extend 16 message-schedule words to 64. -/
def extendW (w : List Nat) : List Nat :=
  (List.range 48).foldl
    (fun acc _ =>
      acc ++ [w32 (smallSigma1 (acc.getD (acc.length - 2) 0) +
                   acc.getD (acc.length - 7) 0 +
                   smallSigma0 (acc.getD (acc.length - 15) 0) +
                   acc.getD (acc.length - 16) 0)])
    w

/-- One round of the SHA-256 compression function. -/
def shaRound (st : Hash8) (kw : Nat × Nat) : Hash8 :=
  let t1 := w32 (st.h + bigSigma1 st.e + shaCh st.e st.f st.g + kw.1 + kw.2)
  let t2 := w32 (bigSigma0 st.a + shaMaj st.a st.b st.c)
  ⟨w32 (t1 + t2), st.a, st.b, st.c, w32 (st.d + t1), st.e, st.f, st.g⟩

/-- Process one 512-bit block (given as sixteen 32-bit words). -/
def processBlock (st : Hash8) (block : List Nat) : Hash8 :=
  let r := (shaK.zip (extendW block)).foldl shaRound st
  ⟨w32 (st.a + r.a), w32 (st.b + r.b), w32 (st.c + r.c), w32 (st.d + r.d),
   w32 (st.e + r.e), w32 (st.f + r.f), w32 (st.g + r.g), w32 (st.h + r.h)⟩

/-- Merkle–Damgård padding: append `0x80`, zeros, and the 64-bit
big-endian bit length, reaching a multiple of 64 bytes. -/
def padMessage (msg : List Nat) : List Nat :=
  let n := msg.length
  msg ++ 128 :: List.replicate ((119 - n % 64) % 64) 0 ++
    (List.range 8).map (fun i => ((8 * n) >>> (8 * (7 - i))) % 256)

/-- Group four big-endian bytes into one 32-bit word. -/
def bytesToWords : List Nat → List Nat
  | b0 :: b1 :: b2 :: b3 :: rest =>
      (((b0 * 256 + b1) * 256 + b2) * 256 + b3) :: bytesToWords rest
  | _ => []

/-- Split a byte list into 64-byte blocks. -/
def chunk64 : List Nat → List (List Nat)
  | [] => []
  | a :: rest => ((a :: rest).take 64) :: chunk64 ((a :: rest).drop 64)
termination_by l => l.length
decreasing_by simp [List.length_drop]; omega

/-- The eight 32-bit words of the SHA-256 digest of a byte sequence. -/
def sha256Words (msg : List Nat) : List Nat :=
  let st := (chunk64 (padMessage msg)).foldl
    (fun s bl => processBlock s (bytesToWords bl)) initH
  [st.a, st.b, st.c, st.d, st.e, st.f, st.g, st.h]

/-- Lowercase hexadecimal digit, as produced by Go's `%x` verb. -/
def hexDigit (n : Nat) : Char := "0123456789abcdef".data.getD n '0'

/-- Eight-character big-endian hex rendering of one 32-bit word. -/
def wordHex8 (w : Nat) : List Char :=
  (List.range 8).map (fun i => hexDigit ((w >>> (4 * (7 - i))) % 16))

/-- Model of `fmt.Sprintf("%x", sha256.Sum256([]byte(s)))`: the 64-character
lowercase hex digest of the UTF-8 bytes of `s`. -/
def sha256hex (s : String) : String :=
  String.mk ((sha256Words (s.toUTF8.toList.map UInt8.toNat)).map wordHex8).flatten

/-! ### Time model and `olderTime` (`admin.go`)

`var oldest = time.Date(1000, time.January, 1, 0, 0, 0, 0, time.UTC)`:
in the seconds-from-year-1 model this is the constant below (999 Gregorian
years = 364877 days).  Go's zero `time.Time` (year 1) is `0 < oldestCutoff`. -/

def oldestCutoff : Int := 31525372800

/-- Translation of `olderTime` (`admin.go` lines 218-229): a `switch` tried
in order — `a.Before(oldest)` returns `b`; `b.Before(oldest)` returns `a`;
`a.Before(b)` returns `a`; otherwise `b`. -/
def olderTime (a b : Int) : Int :=
  if a < oldestCutoff then b
  else if b < oldestCutoff then a
  else if a < b then a
  else b

/-! ### Data model of the rollup merge engine (`admin.go`) -/

/-- Translation of `usageSeenBoard`.  `id` is the Go `int` field `ID`. -/
structure UsageSeenBoard where
  id : Int
  cpu : String
  uuid : String
  fwHash : String
  gitHash : String
  gitTag : String
  name : String
  uavoHash : String
deriving Repr, DecidableEq

/-- Translation of the envelope part of `asyncUsageData` (the fields of the
queued record that `asyncRollup` reads: IP, geolocation, timestamp).  The
raw JSON document is carried separately as a parsed `UsageRec`. -/
structure AsyncUsageData where
  ip : String
  country : String
  region : String
  city : String
  lat : Int
  lon : Int
  timestamp : Int
deriving Repr, DecidableEq

/-- Translation of the anonymous struct `rec` decoded from `d.RawData` in
`asyncRollup`: the board sightings, client environment facts and the
`ShareIP` consent flag. -/
structure UsageRec where
  boardsSeen : List UsageSeenBoard
  currentArch : String
  currentOS : String
  gcsVersion : String
  shareIP : String
deriving Repr, DecidableEq

/-- Translation of the `FoundController` aggregate record (fields used by
`asyncRollup` and `handleExportBoards`). -/
structure FoundController where
  uuid : String
  hardwareRev : Int
  name : String
  gitHash : String
  gitTag : String
  uavoHash : String
  gcsOS : String
  gcsArch : String
  gcsVersion : String
  addr : String
  country : String
  region : String
  city : String
  lat : Int
  lon : Int
  timestamp : Int
  oldest : Int
  count : Int
  counted : Bool
deriving Repr, DecidableEq

/-- Go's zero value `FoundController{}` (what `datastore.Get` leaves in
`prev` when the entity does not exist, and the value a fresh map read
`items[uuid]` yields). -/
def zeroFC : FoundController :=
  ⟨"", 0, "", "", "", "", "", "", "", "", "", "", "", 0, 0, 0, 0, 0, false⟩

/-- Translation of `canonicalBoard` (`admin.go` lines 357-366). -/
def canonicalBoard (b : String) : String :=
  if b = "CopterControl" then "CC3D"
  else if b = "Revolution" then "Revo"
  else if b = "RevoMini" then "Revo"
  else b

/-- Identity resolution performed (identically) by both loops of
`asyncRollup`: `uuid := b.UUID; if uuid == "" { if b.CPU == "" { continue };
uuid = fmt.Sprintf("%x", sha256.Sum256([]byte(b.CPU))) }`.  `none` means
the sighting is skipped. -/
def resolveBoardUUID (b : UsageSeenBoard) : Option String :=
  if b.uuid ≠ "" then some b.uuid
  else if b.cpu ≠ "" then some (sha256hex b.cpu)
  else none

/-- Insert-or-replace into an association list, keeping one entry per key
(the Go map assignment `m[k] = v`; last write wins). -/
def upsert (m : List (String × UsageSeenBoard)) (k : String) (v : UsageSeenBoard) :
    List (String × UsageSeenBoard) :=
  if m.any (fun kv => kv.1 = k) then
    m.map (fun kv => if kv.1 = k then (k, v) else kv)
  else m ++ [(k, v)]

/-- First loop of `asyncRollup` (lines 243-256): deduplicate the report's
sightings into the `seenBoards` map, canonicalising the board name. -/
def buildSeenBoards (boards : List UsageSeenBoard) : List (String × UsageSeenBoard) :=
  boards.foldl
    (fun m b =>
      match resolveBoardUUID b with
      | none => m
      | some uuid => upsert m uuid { b with name := canonicalBoard b.name })
    []

/-- Body of the second loop of `asyncRollup` (lines 259-300) for one
deduplicated sighting: build the candidate `FoundController` in the fresh
`items` map.  `items[uuid]` starts as the zero value, so
`d.Timestamp.After(fc.Timestamp)` is `0 < d.timestamp`. -/
def buildCandidate (d : AsyncUsageData) (rec : UsageRec) (uuid : String)
    (b : UsageSeenBoard) : FoundController :=
  let fc := zeroFC
  let fc :=
    if fc.timestamp < d.timestamp then
      let fc : FoundController :=
        { fc with
          uuid := uuid
          hardwareRev := b.id.emod 256
          name := canonicalBoard b.name
          gitHash := b.gitHash
          gitTag := b.gitTag
          uavoHash := b.uavoHash
          gcsOS := rec.currentOS
          gcsArch := rec.currentArch
          gcsVersion := rec.gcsVersion
          addr := d.ip
          country := d.country
          region := d.region
          city := d.city
          lat := d.lat
          lon := d.lon
          timestamp := d.timestamp
          oldest := d.timestamp }
      if rec.shareIP ≠ "true" then { fc with addr := "" } else fc
    else fc
  let fc := { fc with oldest := olderTime d.timestamp fc.oldest }
  { fc with count := fc.count + 1 }

/-- Second loop of `asyncRollup`: the `items` map, keyed by the identity
re-resolved from each deduplicated sighting. -/
def buildItems (d : AsyncUsageData) (rec : UsageRec) :
    List (String × FoundController) :=
  (buildSeenBoards rec.boardsSeen).foldl
    (fun items kv =>
      match resolveBoardUUID kv.2 with
      | none => items
      | some uuid => items ++ [(uuid, buildCandidate d rec uuid kv.2)])
    []

/-- Third loop of `asyncRollup` (lines 305-322), per identity: fold the
candidate into the previously stored record.  `prev` is the stored record,
or the zero value when none exists. -/
def mergePrev (prev v : FoundController) : FoundController :=
  { v with
    oldest := olderTime (olderTime prev.oldest v.oldest) prev.timestamp
    counted := v.counted || prev.counted }

/-- The aggregate store: one `FoundController` per identity key. -/
def Store := String → Option FoundController

/-- Effect of one `asyncRollup` call on the aggregate store: every identity
in `items` is read from the pre-state and the merged record is written back
(`datastore.PutMulti` inside one transaction). -/
def asyncRollupStore (store : Store) (d : AsyncUsageData) (rec : UsageRec) : Store :=
  (buildItems d rec).foldl
    (fun s kv =>
      fun u =>
        if u = kv.1 then some (mergePrev ((store kv.1).getD zeroFC) kv.2) else s u)
    store

/-- Merging a sequence of queued usage reports, oldest-queued first. -/
def applyReports (store : Store) (rs : List (AsyncUsageData × UsageRec)) : Store :=
  rs.foldl (fun s dr => asyncRollupStore s dr.1 dr.2) store

/-! ### Identity migration (`handleRewriteUUIDs`, `admin.go` lines 32-93)

A stored tune record is modelled by its identity field `UUID` together with
its embedded JSON document, decoded to a key/value map (the code gunzips
`Data`, decodes it, patches `uniqueId`, re-encodes and re-gzips; both codecs
round-trip, so the model works on the decoded map directly; values of
non-string JSON types are carried by their serialized form). -/

/-- Relevant slice of a stored `TuneResults` entity for the migration. -/
structure TuneRec where
  uuid : String
  doc : List (String × String)
deriving Repr, DecidableEq

/-- Go map assignment `m[k] = v` on the decoded JSON document (the decoded
object has one entry per key, so replace-first is replace-the-entry). -/
def setField : List (String × String) → String → String → List (String × String)
  | [], k, v => [(k, v)]
  | kv :: rest, k, v => if kv.1 = k then (k, v) :: rest else kv :: setField rest k v

/-- JSON map lookup. -/
def getField (m : List (String × String)) (k : String) : Option String :=
  (m.find? (fun kv => kv.1 = k)).map Prod.snd

/-- Per-record body of `handleRewriteUUIDs`: records whose identity already
has the 64-character new-style length are skipped (`continue`); otherwise
the identity is re-derived by hashing the old identity value itself and the
document's `uniqueId` field is patched to the same value. -/
def rewriteUUID (x : TuneRec) : TuneRec :=
  if x.uuid.length = 64 then x
  else
    let newId := sha256hex x.uuid
    { uuid := newId, doc := setField x.doc "uniqueId" newId }

/-! ### Reliable ingest (`handleStoreTune` / `handleAsyncStoreTune`, `web.go`)

The gob serialization and gzip compression are lossless codecs; they are
modelled by injection constructors whose decoders are their exact
inverses, which is the contract the code relies on. -/

/-- Compressed payload bytes (`gz` / `uncompress` round-trip). -/
structure GzData where
  raw : List Nat
deriving Repr, DecidableEq

/-- Relevant slice of a `TuneResults` entity for the ingest path. -/
structure TuneResults where
  data : GzData
  timestamp : Int
  addr : String
  country : String
  region : String
  city : String
  uuid : String
  board : String
  tau : Int
  lat : Int
  lon : Int
deriving Repr, DecidableEq

/-- Gob-encoded `TuneResults` bytes, produced by `handleStoreTune` *before*
the synchronous write is attempted (`web.go` lines 121-126). -/
structure GobPayload where
  record : TuneResults
deriving Repr, DecidableEq

/-- Translation of `gob.NewDecoder(r.Body).Decode(&t)` in
`handleAsyncStoreTune`. -/
def gobDecode (p : GobPayload) : TuneResults := p.record

/-- The HTTP outcome `handleStoreTune` reports to the submitting device. -/
structure StoreTuneResponse where
  status : Nat
  location : Option String
deriving Repr, DecidableEq

/-- Translation of the tail of `handleStoreTune` (`web.go` lines 121-146),
from the point where the record `t` is fully prepared.  `putResult` is the
outcome of the synchronous `datastore.Put` (the fresh key on success),
`enqueueOk` the outcome of `taskqueue.Add` on the `"asyncstore"` lane.
Returns the HTTP response together with the payload enqueued, if any. -/
def handleStoreTune (putResult : Option String) (enqueueOk : Bool)
    (t : TuneResults) : StoreTuneResponse × Option GobPayload :=
  let payload := GobPayload.mk t
  match putResult with
  | some k =>
      (⟨201, some ("https://dronin-autotown.appspot.com/at/tune/" ++ k)⟩, none)
  | none =>
      if enqueueOk then (⟨201, none⟩, some payload)
      else (⟨500, none⟩, none)

/-- Translation of `handleAsyncStoreTune` (`web.go` lines 148-166): decode
the gob payload and hand the decoded record, unchanged, to the same
`datastore.Put`.  Returns the record that is written. -/
def handleAsyncStoreTune (p : GobPayload) : TuneResults := gobDecode p

/-! ### Batch dispatcher (`handleUpdateControllers`, `admin.go` lines 95-179)

The loop body builds one task per historical record that survives
decompression / re-serialization; tasks are modelled by an arbitrary payload
type.  `updateLoop` is the `for` loop's accumulation of `tasks` with a flush
at exactly 100 (`len(tasks) == 100`), and the trailing `if tasks != nil`
flush. -/

/-- The `for` loop of `handleUpdateControllers`: `bs` are the batches handed
to `taskqueue.AddMulti` so far, `cur` the pending `tasks` slice. -/
def updateLoop {τ : Type} : List (List τ) → List τ → List τ → List (List τ) × List τ
  | bs, cur, [] => (bs, cur)
  | bs, cur, t :: rest =>
      let cur' := cur ++ [t]
      if cur'.length = 100 then updateLoop (bs ++ [cur']) [] rest
      else updateLoop bs cur' rest

/-- Final flush of `handleUpdateControllers`: `if tasks != nil` enqueue the
trailing partial batch. -/
def finishBatches {τ : Type} (r : List (List τ) × List τ) : List (List τ) :=
  if r.2.isEmpty then r.1 else r.1 ++ [r.2]

/-- All batches enqueued for a survivor list: the full batches flushed inside
the loop, plus the trailing partial batch when `tasks != nil`. -/
def dispatchBatches {τ : Type} (recs : List τ) : List (List τ) :=
  finishBatches (updateLoop [] [] recs)

/-- Outcome of `handleUpdateControllers` given a per-batch enqueue oracle
`ok` (batch index ↦ whether its `taskqueue.AddMulti` succeeds): the reported
success (`errgroup.Wait` returns no error iff every batch succeeded — every
launched goroutine runs regardless) and the batches whose records remain
enqueued. -/
def redrive {τ : Type} (ok : Nat → Bool) (recs : List τ) :
    Bool × List (List τ) :=
  let batches := dispatchBatches recs
  ((List.range batches.length).all ok,
   (batches.enum.filter (fun bi => ok bi.1)).map Prod.snd)

/-- Reference chunking: blocks of 100 with one trailing partial block. -/
def chunks100 {τ : Type} : List τ → List (List τ)
  | [] => []
  | t :: rest => ((t :: rest).take 100) :: chunks100 ((t :: rest).drop 100)
termination_by l => l.length
decreasing_by simp [List.length_drop]; omega

/-! ### Concrete sample data used by witnesses and counterexamples -/

/-- Sample sighting with an explicit UUID and an aliased board name. -/
def sampleBoardA : UsageSeenBoard := ⟨5, "", "u", "f", "g1", "t1", "CopterControl", "h1"⟩

/-- Second sample sighting for the same identity, distinct field values. -/
def sampleBoardB : UsageSeenBoard := ⟨-1, "", "u", "f", "g2", "t2", "N2", "h2"⟩

/-- Sighting carrying only a hardware CPU identifier. -/
def cpuBoard : UsageSeenBoard := ⟨0, "cpu01", "", "", "", "", "B", ""⟩

/-- Sighting with neither UUID nor CPU identifier. -/
def ghostBoard : UsageSeenBoard := ⟨0, "", "", "", "", "", "G", ""⟩

/-- Report envelope A, embedded timestamp T2 (valid, on/after year 1000). -/
def sampleDataA : AsyncUsageData := ⟨"1.1.1.1", "US", "CA", "SF", 3, 4, 50000000000⟩

/-- Report envelope B, embedded timestamp T1 with T1 < T2 (also valid). -/
def sampleDataB : AsyncUsageData := ⟨"2.2.2.2", "DE", "BE", "B", 5, 6, 40000000000⟩

/-- Report envelope with the zero `time.Time` as its embedded timestamp. -/
def sampleDataZ : AsyncUsageData := ⟨"9.9.9.9", "FR", "X", "Y", 7, 8, 0⟩

/-- Report A: consenting (`ShareIP == "true"`), seeing `sampleBoardA`. -/
def sampleRecA : UsageRec := ⟨[sampleBoardA], "x64", "linux", "v1", "true"⟩

/-- Report B: non-consenting, seeing `sampleBoardB`. -/
def sampleRecB : UsageRec := ⟨[sampleBoardB], "arm", "mac", "v2", "false"⟩

/-- A store with no records. -/
def emptyStore : Store := fun _ => none

/-- An existing aggregate record with valid timestamps, a non-empty address
and `count = 5`. -/
def primedFC : FoundController :=
  ⟨"u", 1, "N", "g", "t", "h", "o", "a", "v", "9.9.9.9", "C", "R", "Ci", 1, 2,
   45000000000, 45000000000, 5, true⟩

/-- A store holding `primedFC` under identity `"u"`. -/
def primedStore : Store := fun u => if u = "u" then some primedFC else none

/-- Legacy tune record: short-form identity, self-reported in its document. -/
def legacyRec : TuneRec := ⟨"old-uuid", [("uniqueId", "old-uuid"), ("board", "CC3D")]⟩

/-- Already-migrated tune record: 64-character new-style identity. -/
def migratedRec : TuneRec :=
  ⟨"0123456789abcdef0123456789abcdef0123456789abcdef0123456789abcdef",
   [("uniqueId", "0123456789abcdef0123456789abcdef0123456789abcdef0123456789abcdef")]⟩

/-- A fully prepared tune record for the ingest path. -/
def sampleTune : TuneResults := ⟨⟨[1, 2, 3]⟩, 100, "a", "US", "CA", "SF", "u", "CC3D", 7, 1, 2⟩

/-! ## Helper lemmas -/

theorem wordHex8_length (w : Nat) : (wordHex8 w).length = 8 := by
  simp [wordHex8]

/-- The digest rendered by `sha256hex` always has exactly 64 characters
(the "new style" identity width tested by `len(x.UUID) == 64`). -/
theorem sha256hex_length (s : String) : (sha256hex s).length = 64 := by
  simp [sha256hex, sha256Words, String.length, wordHex8_length]

theorem canonicalBoard_idem (s : String) :
    canonicalBoard (canonicalBoard s) = canonicalBoard s := by
  unfold canonicalBoard
  split_ifs <;> simp_all

theorem resolve_name_update (b : UsageSeenBoard) (n : String) :
    resolveBoardUUID { b with name := n } = resolveBoardUUID b := rfl

theorem buildCandidate_name_update (d : AsyncUsageData) (rec : UsageRec)
    (u : String) (b : UsageSeenBoard) :
    buildCandidate d rec u { b with name := canonicalBoard b.name } =
      buildCandidate d rec u b := by
  unfold buildCandidate
  simp [canonicalBoard_idem]

/-- Effect of one `asyncRollup` call carrying exactly one resolvable
sighting: the store changes at that identity alone, to the candidate merged
against the previously stored record (or the zero value). -/
theorem asyncRollup_single (s : Store) (d : AsyncUsageData) (rec : UsageRec)
    (b : UsageSeenBoard) (u : String)
    (hb : rec.boardsSeen = [b]) (hu : resolveBoardUUID b = some u) (v : String) :
    asyncRollupStore s d rec v =
      if v = u then some (mergePrev ((s u).getD zeroFC) (buildCandidate d rec u b))
      else s v := by
  unfold asyncRollupStore buildItems buildSeenBoards
  rw [hb]
  simp [List.foldl_cons, hu, upsert, resolve_name_update, buildCandidate_name_update]

theorem olderTime_self (a : Int) : olderTime a a = a := by
  unfold olderTime; split_ifs <;> rfl

theorem olderTime_valid_min (a b : Int) (ha : oldestCutoff ≤ a) (hb : oldestCutoff ≤ b) :
    olderTime a b = min a b := by
  unfold olderTime; unfold oldestCutoff at *; rw [min_def]; split_ifs <;> omega

theorem olderTime_left_invalid {a : Int} (b : Int) (h : a < oldestCutoff) :
    olderTime a b = b := by unfold olderTime; split_ifs; omega

theorem olderTime_right_invalid {a b : Int} (ha : ¬ a < oldestCutoff)
    (h : b < oldestCutoff) : olderTime a b = a := by
  unfold olderTime; split_ifs; omega

theorem cutoff_pos : (0 : Int) < oldestCutoff := by norm_num [oldestCutoff]

/-- Value of the candidate record when the report timestamp is positive
(the `d.Timestamp.After(fc.Timestamp)` branch against the fresh zero map
entry is taken). -/
theorem buildCandidate_pos (d : AsyncUsageData) (rec : UsageRec) (u : String)
    (b : UsageSeenBoard) (h : 0 < d.timestamp) :
    buildCandidate d rec u b =
      ⟨u, b.id.emod 256, canonicalBoard b.name, b.gitHash, b.gitTag, b.uavoHash,
       rec.currentOS, rec.currentArch, rec.gcsVersion,
       if rec.shareIP = "true" then d.ip else "",
       d.country, d.region, d.city, d.lat, d.lon,
       d.timestamp, d.timestamp, 1, false⟩ := by
  unfold buildCandidate
  simp [zeroFC, h, olderTime_self]
  split_ifs with hc
  · simp [olderTime_self]
  · simp [olderTime_self]

theorem buildCandidate_nonpos (d : AsyncUsageData) (rec : UsageRec) (u : String)
    (b : UsageSeenBoard) (h : ¬ 0 < d.timestamp) :
    buildCandidate d rec u b =
      { zeroFC with oldest := olderTime d.timestamp 0, count := 1 } := by
  unfold buildCandidate
  simp [zeroFC, h]

theorem mergePrev_count (p v : FoundController) : (mergePrev p v).count = v.count := rfl

theorem mergePrev_addr (p v : FoundController) : (mergePrev p v).addr = v.addr := rfl

theorem mergePrev_timestamp (p v : FoundController) :
    (mergePrev p v).timestamp = v.timestamp := rfl

theorem mergePrev_oldest (p v : FoundController) :
    (mergePrev p v).oldest = olderTime (olderTime p.oldest v.oldest) p.timestamp := rfl

theorem buildCandidate_count (d : AsyncUsageData) (rec : UsageRec) (u : String)
    (b : UsageSeenBoard) : (buildCandidate d rec u b).count = 1 := by
  by_cases h : 0 < d.timestamp
  · rw [buildCandidate_pos d rec u b h]
  · rw [buildCandidate_nonpos d rec u b h]

theorem buildCandidate_addr (d : AsyncUsageData) (rec : UsageRec) (u : String)
    (b : UsageSeenBoard) (hc : rec.shareIP ≠ "true") :
    (buildCandidate d rec u b).addr = "" := by
  by_cases h : 0 < d.timestamp
  · rw [buildCandidate_pos d rec u b h]; simp [hc]
  · rw [buildCandidate_nonpos d rec u b h]; rfl

/-- A sighting with neither identity source is dropped by the `seenBoards`
loop (`continue`). -/
theorem buildSeenBoards_skip (l1 l2 : List UsageSeenBoard) (b : UsageSeenBoard)
    (hb : resolveBoardUUID b = none) :
    buildSeenBoards (l1 ++ b :: l2) = buildSeenBoards (l1 ++ l2) := by
  unfold buildSeenBoards
  rw [List.foldl_append, List.foldl_append, List.foldl_cons, hb]

theorem getField_setField_same (m : List (String × String)) (k v : String) :
    getField (setField m k v) k = some v := by
  induction m with
  | nil => simp [getField, setField, List.find?]
  | cons kv rest ih =>
    by_cases h : kv.1 = k
    · simp [getField, setField, h, List.find?]
    · simp only [setField, if_neg h]
      simpa [getField, List.find?, h] using ih

theorem getField_setField_other (m : List (String × String)) (k v kq : String)
    (hne : kq ≠ k) : getField (setField m k v) kq = getField m kq := by
  have hk : ¬ k = kq := fun e => hne e.symm
  induction m with
  | nil => simp [getField, setField, List.find?, hk]
  | cons kv rest ih =>
    by_cases h : kv.1 = k
    · have h2 : ¬ kv.1 = kq := by rw [h]; exact hk
      simp [getField, setField, h, h2, List.find?, hk]
    · by_cases h3 : kv.1 = kq
      · simp only [setField, if_neg h]
        simp [getField, List.find?, h3]
      · simp only [setField, if_neg h]
        simpa [getField, List.find?, h3] using ih

theorem chunks100_cons {τ : Type} (a : τ) (rest : List τ) :
    chunks100 (a :: rest) =
      ((a :: rest).take 100) :: chunks100 ((a :: rest).drop 100) := by
  rw [chunks100]

theorem chunks100_nil {τ : Type} : chunks100 ([] : List τ) = [] := by
  rw [chunks100]

theorem chunks100_small {τ : Type} (l : List τ) (h : l.length ≤ 100) :
    chunks100 l = if l.isEmpty then [] else [l] := by
  cases l with
  | nil => exact chunks100_nil
  | cons a rest =>
    rw [chunks100_cons, List.take_of_length_le h, List.drop_eq_nil_of_le h,
      chunks100_nil]
    rfl

/-- The accumulation loop of `handleUpdateControllers` produces exactly the
100-chunking of whatever it is fed, after the trailing flush. -/
theorem updateLoop_eq {τ : Type} :
    ∀ (l : List τ) (bs : List (List τ)) (cur : List τ), cur.length < 100 →
      finishBatches (updateLoop bs cur l) = bs ++ chunks100 (cur ++ l) := by
  intro l
  induction l with
  | nil =>
    intro bs cur hcur
    rw [List.append_nil]
    unfold updateLoop finishBatches
    rw [chunks100_small cur (le_of_lt hcur)]
    cases cur <;> simp
  | cons t rest ih =>
    intro bs cur hcur
    unfold updateLoop
    by_cases h : (cur ++ [t]).length = 100
    · rw [if_pos h, ih (bs ++ [cur ++ [t]]) [] (by norm_num)]
      have hsplit : cur ++ t :: rest = (cur ++ [t]) ++ rest := by simp
      rw [hsplit]
      have hne : (cur ++ [t]) ++ rest ≠ [] := by simp
      obtain ⟨a, l2, he⟩ := List.exists_cons_of_ne_nil hne
      rw [he, chunks100_cons, ← he]
      rw [show ((cur ++ [t]) ++ rest).take 100 = cur ++ [t] from by
            rw [← h]; exact List.take_left _ _,
          show ((cur ++ [t]) ++ rest).drop 100 = rest from by
            rw [← h]; exact List.drop_left _ _]
      simp
    · have hlt : (cur ++ [t]).length < 100 := by
        simp only [List.length_append, List.length_singleton] at h ⊢
        omega
      rw [if_neg h, ih bs (cur ++ [t]) hlt]
      simp

theorem dispatchBatches_eq_chunks {τ : Type} (recs : List τ) :
    dispatchBatches recs = chunks100 recs := by
  unfold dispatchBatches
  rw [updateLoop_eq recs [] [] (by norm_num)]
  rfl

theorem chunks100_sizes_aux {τ : Type} :
    ∀ (n : Nat) (l : List τ), l.length ≤ n →
      (chunks100 l).map List.length =
        List.replicate (l.length / 100) 100 ++
          (if l.length % 100 = 0 then [] else [l.length % 100]) := by
  intro n
  induction n with
  | zero =>
    intro l hl
    rw [List.length_eq_zero.mp (Nat.le_zero.mp hl)]
    simp [chunks100_nil]
  | succ n ih =>
    intro l hl
    by_cases hsmall : l.length ≤ 100
    · rw [chunks100_small l hsmall]
      cases l with
      | nil => simp
      | cons a rest =>
        have h1 : (a :: rest).length ≠ 0 := by simp
        by_cases h2 : (a :: rest).length = 100
        · have h100 : rest.length + 1 = 100 := by simpa using h2
          simp only [List.isEmpty_cons, Bool.false_eq_true, if_false,
            List.map_cons, List.map_nil, List.length_cons, h100]
          norm_num [List.replicate_one]
        · have h3 : (a :: rest).length < 100 := by omega
          simp only [List.isEmpty_cons, Bool.false_eq_true, if_false,
            List.map_cons, List.map_nil]
          rw [Nat.div_eq_of_lt h3, Nat.mod_eq_of_lt h3]
          simp
    · push_neg at hsmall
      cases l with
      | nil => simp at hsmall
      | cons a rest =>
        rw [chunks100_cons]
        have hd : ((a :: rest).drop 100).length ≤ n := by
          simp only [List.length_drop]
          simp only [List.length_cons] at hl ⊢
          omega
        rw [List.map_cons, ih _ hd]
        have ht : ((a :: rest).take 100).length = 100 := by
          simp only [List.length_take]
          omega
        rw [ht]
        have hlen : ((a :: rest).drop 100).length = (a :: rest).length - 100 := by
          simp [List.length_drop]
        rw [hlen]
        have e1 : (a :: rest).length / 100 = ((a :: rest).length - 100) / 100 + 1 := by
          omega
        have e2 : (a :: rest).length % 100 = ((a :: rest).length - 100) % 100 := by
          omega
        rw [e1, e2, List.replicate_succ]
        simp

theorem chunks100_flatten_aux {τ : Type} :
    ∀ (n : Nat) (l : List τ), l.length ≤ n → (chunks100 l).flatten = l := by
  intro n
  induction n with
  | zero =>
    intro l hl
    rw [List.length_eq_zero.mp (Nat.le_zero.mp hl)]
    simp [chunks100_nil]
  | succ n ih =>
    intro l hl
    cases l with
    | nil => simp [chunks100_nil]
    | cons a rest =>
      rw [chunks100_cons, List.flatten_cons,
        ih _ (by simp only [List.length_drop]; simp only [List.length_cons] at hl ⊢; omega),
        List.take_append_drop]

/-! ## Claims -/

/-- C1, counterexample: merging report A (timestamp T2 = 50000000000) and
then report B (timestamp T1 = 40000000000 < T2) for the same identity `"u"`
leaves the current-state fields as those of B (board name `"N2"`), not of A
(`"CC3D"`), even though the embedded timestamp of B is earlier; `Oldest` does
become T1. -/
theorem claim_C1_cex :
    ((applyReports emptyStore
        [(sampleDataA, sampleRecA), (sampleDataB, sampleRecB)]) "u").map
      FoundController.name = some "N2" ∧
    ((applyReports emptyStore [(sampleDataA, sampleRecA)]) "u").map
      FoundController.name = some "CC3D" ∧
    ((applyReports emptyStore
        [(sampleDataA, sampleRecA), (sampleDataB, sampleRecB)]) "u").map
      FoundController.oldest = some 40000000000 ∧
    sampleDataB.timestamp < sampleDataA.timestamp ∧
    ("N2" : String) ≠ "CC3D" := by decide

/-- C1 (amended): the merge against an existing record overwrites the
current-state fields unconditionally with the report being processed (here:
any report whose embedded timestamp is on/after the year-1000 sentinel), so
merging report A (timestamp T2) then report B (timestamp T1 < T2) leaves the
current-state fields and `Timestamp` as those of B, while `Oldest` becomes T1. -/
theorem claim_C1 (s : Store) (d1 d2 : AsyncUsageData) (r1 r2 : UsageRec)
    (b1 b2 : UsageSeenBoard) (u : String)
    (hb1 : r1.boardsSeen = [b1]) (hu1 : resolveBoardUUID b1 = some u)
    (hb2 : r2.boardsSeen = [b2]) (hu2 : resolveBoardUUID b2 = some u)
    (hs : s u = none)
    (hT1 : oldestCutoff ≤ d2.timestamp) (hT2 : d2.timestamp < d1.timestamp) :
    ∃ fc, applyReports s [(d1, r1), (d2, r2)] u = some fc ∧
      fc.name = canonicalBoard b2.name ∧ fc.gitHash = b2.gitHash ∧
      fc.gitTag = b2.gitTag ∧ fc.uavoHash = b2.uavoHash ∧
      fc.gcsOS = r2.currentOS ∧ fc.gcsArch = r2.currentArch ∧
      fc.gcsVersion = r2.gcsVersion ∧
      fc.addr = (if r2.shareIP = "true" then d2.ip else "") ∧
      fc.country = d2.country ∧ fc.region = d2.region ∧ fc.city = d2.city ∧
      fc.lat = d2.lat ∧ fc.lon = d2.lon ∧
      fc.timestamp = d2.timestamp ∧ fc.oldest = d2.timestamp := by
  have hd1 : oldestCutoff ≤ d1.timestamp := le_of_lt (lt_of_le_of_lt hT1 hT2)
  have hp1 : 0 < d1.timestamp := lt_of_lt_of_le cutoff_pos hd1
  have hp2 : 0 < d2.timestamp := lt_of_lt_of_le cutoff_pos hT1
  have step : applyReports s [(d1, r1), (d2, r2)] u =
      asyncRollupStore (asyncRollupStore s d1 r1) d2 r2 u := rfl
  rw [step, asyncRollup_single (asyncRollupStore s d1 r1) d2 r2 b2 u hb2 hu2 u,
      if_pos rfl, asyncRollup_single s d1 r1 b1 u hb1 hu1 u, if_pos rfl, hs]
  simp only [Option.getD_some, Option.getD_none]
  refine ⟨_, rfl, ?_⟩
  rw [buildCandidate_pos d1 r1 u b1 hp1, buildCandidate_pos d2 r2 u b2 hp2]
  have e0 : olderTime 0 d1.timestamp = d1.timestamp :=
    olderTime_left_invalid _ cutoff_pos
  have e1 : olderTime d1.timestamp 0 = d1.timestamp :=
    olderTime_right_invalid (by omega) cutoff_pos
  have e2 : olderTime d1.timestamp d2.timestamp = d2.timestamp := by
    rw [olderTime_valid_min _ _ hd1 hT1]; omega
  have e3 : olderTime d2.timestamp d1.timestamp = d2.timestamp := by
    rw [olderTime_valid_min _ _ hT1 hd1]; omega
  simp [mergePrev, zeroFC, e0, e1, e2, e3]

/-- C1 witness: the amended theorem applied at the concrete A-then-B
scenario of the counterexample. -/
theorem claim_C1_witness :
    ∃ fc, applyReports emptyStore
        [(sampleDataA, sampleRecA), (sampleDataB, sampleRecB)] "u" = some fc ∧
      fc.name = canonicalBoard sampleBoardB.name ∧
      fc.gitHash = sampleBoardB.gitHash ∧
      fc.gitTag = sampleBoardB.gitTag ∧ fc.uavoHash = sampleBoardB.uavoHash ∧
      fc.gcsOS = sampleRecB.currentOS ∧ fc.gcsArch = sampleRecB.currentArch ∧
      fc.gcsVersion = sampleRecB.gcsVersion ∧
      fc.addr = (if sampleRecB.shareIP = "true" then sampleDataB.ip else "") ∧
      fc.country = sampleDataB.country ∧ fc.region = sampleDataB.region ∧
      fc.city = sampleDataB.city ∧
      fc.lat = sampleDataB.lat ∧ fc.lon = sampleDataB.lon ∧
      fc.timestamp = sampleDataB.timestamp ∧
      fc.oldest = sampleDataB.timestamp :=
  claim_C1 emptyStore sampleDataA sampleDataB sampleRecA sampleRecB
    sampleBoardA sampleBoardB "u" rfl (by decide) rfl (by decide) rfl
    (by decide) (by decide)

/-- C2, counterexample: merging a second report against the existing record
(whose `Count` is 1) stores `Count = 1` again, not the prior count
incremented to 2 — the merge loop never reads `prev.Count`. -/
theorem claim_C2_cex :
    ((applyReports emptyStore [(sampleDataA, sampleRecA)]) "u").map
      FoundController.count = some 1 ∧
    ((applyReports emptyStore
        [(sampleDataA, sampleRecA), (sampleDataB, sampleRecB)]) "u").map
      FoundController.count = some 1 ∧
    (some 1 : Option Int) ≠ some (1 + 1) := by decide

/-- C2 (amended): a merge stores `Count = 1` — the contribution of the
current report alone (one per identity) — regardless of the `Count` of the
prior record, which is discarded rather than incremented. -/
theorem claim_C2 (s : Store) (d : AsyncUsageData) (rec : UsageRec)
    (b : UsageSeenBoard) (u : String)
    (hb : rec.boardsSeen = [b]) (hu : resolveBoardUUID b = some u) :
    ∃ fc, asyncRollupStore s d rec u = some fc ∧ fc.count = 1 := by
  rw [asyncRollup_single s d rec b u hb hu u]
  exact ⟨_, if_pos rfl, by rw [mergePrev_count, buildCandidate_count]⟩

/-- C2 witness: merging against a stored record with `Count = 5` still
stores `Count = 1`. -/
theorem claim_C2_witness :
    ∃ fc, asyncRollupStore primedStore sampleDataA sampleRecA "u" = some fc ∧
      fc.count = 1 :=
  claim_C2 primedStore sampleDataA sampleRecA sampleBoardA "u" rfl (by decide)

/-- C3, counterexample: after a merge whose report carries the zero
timestamp against a record with `Oldest = Timestamp = 50000000000`, the
stored `Oldest` is 50000000000 — not the literal three-way minimum 0 — and
the stored `Timestamp` is 0, so `Oldest <= Timestamp` fails. -/
theorem claim_C3_cex :
    ((applyReports emptyStore
        [(sampleDataA, sampleRecA), (sampleDataZ, sampleRecB)]) "u").map
      FoundController.oldest = some 50000000000 ∧
    ((applyReports emptyStore
        [(sampleDataA, sampleRecA), (sampleDataZ, sampleRecB)]) "u").map
      FoundController.timestamp = some 0 ∧
    ¬ ((50000000000 : Int) ≤ 0) ∧
    (50000000000 : Int) ≠ min (min 50000000000 50000000000) 0 := by decide

/-- C3 (amended): when the stored `Oldest` and `Timestamp` of the prior record
and the report timestamp are all on/after the year-1000 sentinel, the stored
`Oldest` is the three-way minimum of them, never increases, and satisfies
`Oldest <= Timestamp`; timestamps before the sentinel are treated as unset
by `olderTime`, outside this validity condition the plain minimum (and
`Oldest <= Timestamp`) can fail. -/
theorem claim_C3 (s : Store) (d : AsyncUsageData) (rec : UsageRec)
    (b : UsageSeenBoard) (u : String) (prev : FoundController)
    (hb : rec.boardsSeen = [b]) (hu : resolveBoardUUID b = some u)
    (hprev : s u = some prev)
    (h1 : oldestCutoff ≤ prev.oldest) (h2 : oldestCutoff ≤ prev.timestamp)
    (h3 : oldestCutoff ≤ d.timestamp) :
    ∃ fc, asyncRollupStore s d rec u = some fc ∧
      fc.oldest = min (min prev.oldest prev.timestamp) d.timestamp ∧
      fc.oldest ≤ prev.oldest ∧ fc.timestamp = d.timestamp ∧
      fc.oldest ≤ fc.timestamp := by
  have hpos : 0 < d.timestamp := lt_of_lt_of_le cutoff_pos h3
  rw [asyncRollup_single s d rec b u hb hu u]
  refine ⟨_, if_pos rfl, ?_, ?_, ?_, ?_⟩ <;>
    rw [hprev] <;>
    simp only [Option.getD_some, mergePrev_oldest, mergePrev_timestamp,
      buildCandidate_pos d rec u b hpos] <;>
    rw [olderTime_valid_min prev.oldest d.timestamp h1 h3,
        olderTime_valid_min _ prev.timestamp (le_min h1 h3) h2] <;>
    simp only [min_def] <;> split_ifs <;> omega

/-- C3 witness: the amended theorem applied to a stored record with valid
`Oldest = Timestamp = 45000000000` and a report stamped 50000000000. -/
theorem claim_C3_witness :
    ∃ fc, asyncRollupStore primedStore sampleDataA sampleRecA "u" = some fc ∧
      fc.oldest = min (min primedFC.oldest primedFC.timestamp)
        sampleDataA.timestamp ∧
      fc.oldest ≤ primedFC.oldest ∧ fc.timestamp = sampleDataA.timestamp ∧
      fc.oldest ≤ fc.timestamp :=
  claim_C3 primedStore sampleDataA sampleRecA sampleBoardA "u" primedFC rfl
    (by decide) (by decide) (by decide) (by decide) (by decide)

/-- C4 (confirmed): when the `ShareIP` consent flag of the report is not the
exact string `"true"`, the record written by the merge has an empty address
field, whatever the previously stored record held. -/
theorem claim_C4 (s : Store) (d : AsyncUsageData) (rec : UsageRec)
    (b : UsageSeenBoard) (u : String)
    (hb : rec.boardsSeen = [b]) (hu : resolveBoardUUID b = some u)
    (hc : rec.shareIP ≠ "true") :
    ∃ fc, asyncRollupStore s d rec u = some fc ∧ fc.addr = "" := by
  rw [asyncRollup_single s d rec b u hb hu u]
  exact ⟨_, if_pos rfl, by rw [mergePrev_addr, buildCandidate_addr d rec u b hc]⟩

/-- C4 witness: a non-consenting report merged over a stored record whose
address is the non-empty `"9.9.9.9"` still stores an empty address. -/
theorem claim_C4_witness :
    primedFC.addr ≠ "" ∧ sampleRecB.shareIP ≠ "true" ∧
    ∃ fc, asyncRollupStore primedStore sampleDataB sampleRecB "u" = some fc ∧
      fc.addr = "" :=
  ⟨by decide, by decide,
   claim_C4 primedStore sampleDataB sampleRecB sampleBoardB "u" rfl
     (by decide) (by decide)⟩

/-- C5 (confirmed): a sighting with a non-empty explicit UUID resolves to
that UUID verbatim; with an empty UUID and non-empty CPU identifier it
resolves to the 64-character SHA-256 hex digest of the CPU identifier; with
both empty it is skipped entirely — the rollup of a report containing it
equals the rollup of the same report without it, so it contributes to no
stored record and no `Count`. -/
theorem claim_C5 :
    (∀ b : UsageSeenBoard, b.uuid ≠ "" → resolveBoardUUID b = some b.uuid) ∧
    (∀ b : UsageSeenBoard, b.uuid = "" → b.cpu ≠ "" →
      resolveBoardUUID b = some (sha256hex b.cpu) ∧
      (sha256hex b.cpu).length = 64) ∧
    (∀ (s : Store) (d : AsyncUsageData) (rec : UsageRec)
       (l1 l2 : List UsageSeenBoard) (b : UsageSeenBoard),
      b.uuid = "" → b.cpu = "" →
      asyncRollupStore s d { rec with boardsSeen := l1 ++ b :: l2 } =
        asyncRollupStore s d { rec with boardsSeen := l1 ++ l2 }) := by
  refine ⟨?_, ?_, ?_⟩
  · intro b h; simp [resolveBoardUUID, h]
  · intro b h1 h2; simp [resolveBoardUUID, h1, h2, sha256hex_length]
  · intro s d rec l1 l2 b h1 h2
    have hnone : resolveBoardUUID b = none := by simp [resolveBoardUUID, h1, h2]
    unfold asyncRollupStore buildItems
    rw [show ({ rec with boardsSeen := l1 ++ b :: l2 } : UsageRec).boardsSeen
          = l1 ++ b :: l2 from rfl,
        show ({ rec with boardsSeen := l1 ++ l2 } : UsageRec).boardsSeen
          = l1 ++ l2 from rfl,
        buildSeenBoards_skip l1 l2 b hnone]
    simp only [show ∀ (bs : List UsageSeenBoard) (u : String) (bd : UsageSeenBoard),
        buildCandidate d { rec with boardsSeen := bs } u bd
          = buildCandidate d rec u bd from fun _ _ _ => rfl]

/-- C5 witness: the three resolution branches at concrete sightings — an
explicit UUID, a CPU-only sighting, and an identityless sighting whose
presence does not change the rollup result. -/
theorem claim_C5_witness :
    resolveBoardUUID sampleBoardA = some sampleBoardA.uuid ∧
    (resolveBoardUUID cpuBoard = some (sha256hex cpuBoard.cpu) ∧
      (sha256hex cpuBoard.cpu).length = 64) ∧
    asyncRollupStore emptyStore sampleDataA
        { sampleRecA with boardsSeen := [] ++ ghostBoard :: [sampleBoardA] } =
      asyncRollupStore emptyStore sampleDataA
        { sampleRecA with boardsSeen := [] ++ [sampleBoardA] } :=
  ⟨claim_C5.1 sampleBoardA (by decide),
   claim_C5.2.1 cpuBoard (by decide) (by decide),
   claim_C5.2.2 emptyStore sampleDataA sampleRecA [] [sampleBoardA] ghostBoard
     (by decide) (by decide)⟩

/-- C6 (confirmed): with the synchronous write failing, a successful enqueue
yields status 201 with no locator and the enqueued payload is exactly the
pre-serialized record; a failing enqueue yields the hard failure 500 with
nothing enqueued; the queue consumer writes precisely the decoded record;
and 500 occurs exactly when both the write and the enqueue fail. -/
theorem claim_C6 (t : TuneResults) :
    (handleStoreTune none true t = (⟨201, none⟩, some (GobPayload.mk t))) ∧
    (handleStoreTune none false t = (⟨500, none⟩, none)) ∧
    (∀ p, handleAsyncStoreTune p = gobDecode p) ∧
    (∀ p, (handleStoreTune none true t).2 = some p → handleAsyncStoreTune p = t) ∧
    (∀ pr ok, (handleStoreTune pr ok t).1.status = 500 ↔ pr = none ∧ ok = false) := by
  refine ⟨rfl, rfl, fun _ => rfl, ?_, ?_⟩
  · intro p hp
    simp only [handleStoreTune] at hp
    cases hp
    rfl
  · intro pr ok
    cases pr <;> cases ok <;> simp [handleStoreTune]

/-- C6 witness: the consumer re-writes the concrete deferred record
unchanged, and the hard-failure characterisation at the concrete record. -/
theorem claim_C6_witness :
    handleAsyncStoreTune (GobPayload.mk sampleTune) = sampleTune ∧
    ((handleStoreTune none false sampleTune).1.status = 500 ↔
      (none : Option String) = none ∧ false = false) :=
  ⟨(claim_C6 sampleTune).2.2.2.1 (GobPayload.mk sampleTune) rfl,
   (claim_C6 sampleTune).2.2.2.2 none false⟩

/-- C7 (confirmed): the dispatcher enqueues the surviving records in batches
of exactly 100 plus one final partial batch holding the remainder, without
loss or reordering; 250 records give batches of sizes 100, 100, 50; the
operation reports success exactly when the enqueue of every batch succeeds; and
every batch whose enqueue succeeded remains enqueued. -/
theorem claim_C7 :
    (∀ (τ : Type) (recs : List τ),
      (dispatchBatches recs).map List.length =
        List.replicate (recs.length / 100) 100 ++
          (if recs.length % 100 = 0 then [] else [recs.length % 100])) ∧
    (∀ (τ : Type) (recs : List τ), (dispatchBatches recs).flatten = recs) ∧
    ((dispatchBatches (List.range 250)).map List.length = [100, 100, 50]) ∧
    (∀ (τ : Type) (ok : Nat → Bool) (recs : List τ),
      (redrive ok recs).1 = true ↔
        ∀ i < (dispatchBatches recs).length, ok i = true) ∧
    (∀ (τ : Type) (ok : Nat → Bool) (recs : List τ)
       (i : Nat) (h : i < (dispatchBatches recs).length), ok i = true →
      (dispatchBatches recs).get ⟨i, h⟩ ∈ (redrive ok recs).2) := by
  refine ⟨?_, ?_, ?_, ?_, ?_⟩
  · intro τ recs
    rw [dispatchBatches_eq_chunks]
    exact chunks100_sizes_aux recs.length recs le_rfl
  · intro τ recs
    rw [dispatchBatches_eq_chunks]
    exact chunks100_flatten_aux recs.length recs le_rfl
  · rw [dispatchBatches_eq_chunks,
      chunks100_sizes_aux 250 (List.range 250) (by simp)]
    simp only [List.length_range]
    norm_num [List.replicate_succ]
  · intro τ ok recs
    simp only [redrive]
    rw [List.all_eq_true]
    constructor
    · intro hall i hi
      exact hall i (List.mem_range.mpr hi)
    · intro hall i hi
      exact hall i (List.mem_range.mp hi)
  · intro τ ok recs i h hok
    simp only [redrive]
    have hi2 : i < (dispatchBatches recs).enum.length := by
      simpa [List.enum_length] using h
    refine List.mem_map.mpr ⟨(i, (dispatchBatches recs).get ⟨i, h⟩), ?_, rfl⟩
    rw [List.mem_filter]
    refine ⟨?_, by simpa using hok⟩
    have he : (dispatchBatches recs).enum.get ⟨i, hi2⟩
        = (i, (dispatchBatches recs).get ⟨i, h⟩) := by
      simp [List.getElem_enum]
    rw [← he]
    exact List.get_mem _ _ _

/-- C7 witness: the conjuncts applied at a concrete five-record redrive with
an all-successful enqueue oracle. -/
theorem claim_C7_witness :
    (dispatchBatches (List.range 5)).flatten = List.range 5 ∧
    ((redrive (fun _ => true) (List.range 5)).1 = true ↔
      ∀ i < (dispatchBatches (List.range 5)).length,
        (fun _ => true : Nat → Bool) i = true) ∧
    (dispatchBatches (List.range 5)).get ⟨0, by decide⟩ ∈
      (redrive (fun _ => true) (List.range 5)).2 :=
  ⟨claim_C7.2.1 Nat (List.range 5),
   claim_C7.2.2.2.1 Nat (fun _ => true) (List.range 5),
   claim_C7.2.2.2.2 Nat (fun _ => true) (List.range 5) 0 (by decide) rfl⟩

/-- C8 (confirmed): the migration leaves 64-character identities untouched;
on a short-form identity it re-derives the identity by hashing the old
identity value itself, patches the `uniqueId` field of the document to the same
value while leaving every other field unchanged; and it is idempotent,
because the migrated identity has length 64 and the length check
short-circuits the second run. -/
theorem claim_C8 (x : TuneRec) :
    (x.uuid.length = 64 → rewriteUUID x = x) ∧
    (x.uuid.length ≠ 64 →
      (rewriteUUID x).uuid = sha256hex x.uuid ∧
      getField (rewriteUUID x).doc "uniqueId" = some (rewriteUUID x).uuid ∧
      ∀ k, k ≠ "uniqueId" → getField (rewriteUUID x).doc k = getField x.doc k) ∧
    rewriteUUID (rewriteUUID x) = rewriteUUID x := by
  refine ⟨?_, ?_, ?_⟩
  · intro h; simp [rewriteUUID, h]
  · intro h
    have h1 : (rewriteUUID x).uuid = sha256hex x.uuid := by simp [rewriteUUID, h]
    have h2 : (rewriteUUID x).doc = setField x.doc "uniqueId" (sha256hex x.uuid) := by
      simp [rewriteUUID, h]
    rw [h1, h2]
    exact ⟨rfl, getField_setField_same _ _ _,
      fun k hk => getField_setField_other _ _ _ k hk⟩
  · by_cases h : x.uuid.length = 64
    · simp [rewriteUUID, h]
    · have h1 : (rewriteUUID x).uuid = sha256hex x.uuid := by simp [rewriteUUID, h]
      have h64 : (rewriteUUID x).uuid.length = 64 := by
        rw [h1]; exact sha256hex_length _
      generalize hg : rewriteUUID x = y at h64 ⊢
      simp [rewriteUUID, h64]

/-- C8 witness: the theorem applied to a concrete legacy record (patched
identity, untouched `board` field, idempotent second run) and to a concrete
already-migrated record (left unchanged). -/
theorem claim_C8_witness :
    rewriteUUID migratedRec = migratedRec ∧
    (rewriteUUID legacyRec).uuid = sha256hex legacyRec.uuid ∧
    getField (rewriteUUID legacyRec).doc "uniqueId"
      = some (rewriteUUID legacyRec).uuid ∧
    getField (rewriteUUID legacyRec).doc "board" = getField legacyRec.doc "board" ∧
    rewriteUUID (rewriteUUID legacyRec) = rewriteUUID legacyRec :=
  ⟨(claim_C8 migratedRec).1 (by decide),
   ((claim_C8 legacyRec).2.1 (by decide)).1,
   ((claim_C8 legacyRec).2.1 (by decide)).2.1,
   ((claim_C8 legacyRec).2.1 (by decide)).2.2 "board" (by decide),
   (claim_C8 legacyRec).2.2⟩

/-- C9 (confirmed): `olderTime` returns `b` when `a` predates the year-1000
sentinel, otherwise returns `a` when `b` predates it, otherwise the earlier
of the two; hence whenever at least one argument is a valid (on/after the
sentinel) timestamp, the result is a valid timestamp — an unset or
pre-year-1000 time never wins over a valid one. -/
theorem claim_C9 (a b : Int) :
    (a < oldestCutoff → olderTime a b = b) ∧
    (¬ a < oldestCutoff → b < oldestCutoff → olderTime a b = a) ∧
    (¬ a < oldestCutoff → ¬ b < oldestCutoff → olderTime a b = min a b) ∧
    (oldestCutoff ≤ a ∨ oldestCutoff ≤ b → oldestCutoff ≤ olderTime a b) := by
  refine ⟨?_, ?_, ?_, ?_⟩ <;> intros <;> simp only [olderTime, min_def] <;>
    split_ifs <;> omega

/-- C9 witness: the four branches at concrete timestamps around the
sentinel. -/
theorem claim_C9_witness :
    olderTime 0 31525372800 = 31525372800 ∧
    olderTime 31525372800 0 = 31525372800 ∧
    olderTime 31525372801 31525372802 = min 31525372801 31525372802 ∧
    oldestCutoff ≤ olderTime 0 31525372800 :=
  ⟨(claim_C9 0 31525372800).1 (by decide),
   (claim_C9 31525372800 0).2.1 (by decide) (by decide),
   (claim_C9 31525372801 31525372802).2.2.1 (by decide) (by decide),
   (claim_C9 0 31525372800).2.2.2 (Or.inr (by decide))⟩

/-- C10 (confirmed): for a non-consenting report, the record the merge
stores is exactly the record the same report would store with consent, with
only its address field cleared — every other stored field is identical. -/
theorem claim_C10 (s : Store) (d : AsyncUsageData) (rec : UsageRec)
    (b : UsageSeenBoard) (u : String)
    (hb : rec.boardsSeen = [b]) (hu : resolveBoardUUID b = some u)
    (hc : rec.shareIP ≠ "true") :
    asyncRollupStore s d rec u =
      (asyncRollupStore s d { rec with shareIP := "true" } u).map
        (fun fc => { fc with addr := "" }) := by
  rw [asyncRollup_single s d rec b u hb hu u,
      asyncRollup_single s d { rec with shareIP := "true" } b u hb hu u,
      if_pos rfl, if_pos rfl]
  by_cases h : 0 < d.timestamp
  · rw [buildCandidate_pos d rec u b h,
        buildCandidate_pos d { rec with shareIP := "true" } u b h]
    simp [mergePrev, hc]
  · rw [buildCandidate_nonpos d rec u b h,
        buildCandidate_nonpos d { rec with shareIP := "true" } u b h]
    simp [mergePrev, zeroFC]

/-- C10 witness: the frame equality at the concrete non-consenting report B
over the primed store. -/
theorem claim_C10_witness :
    asyncRollupStore primedStore sampleDataB sampleRecB "u" =
      (asyncRollupStore primedStore sampleDataB
          { sampleRecB with shareIP := "true" } "u").map
        (fun fc => { fc with addr := "" }) :=
  claim_C10 primedStore sampleDataB sampleRecB sampleBoardB "u" rfl
    (by decide) (by decide)

end Autotown
